import Mathlib

/-!
Verification of the Linode terraform provider's image resource controller
(`src/linode/resource_linode_image.go`) and the volume change detector,
as a shallow embedding: the external API client's answers are passed in
as explicit parameters (one per call site, in call order), and each
operation returns its outcome together with the list of API calls it
issued.
-/

namespace LinodeProvider

/-- Go `error` values reaching this code: either a structured
`*linodego.Error` carrying a numeric status code, or any other error.
Mirrors the type switch `err.(*linodego.Error)` in the source. -/
inductive GoError where
  | linodegoError (code : Int) (message : String)
  | otherError (message : String)
deriving DecidableEq, Repr

/-- Model of the Go `error` interface's `Error()` rendering (external to
the repo; `linodego.Error` renders as `[code] message`). Only used to
build the wrapped message strings, never inspected by the logic. -/
def GoError.errString : GoError → String
  | .linodegoError code msg => "[" ++ toString code ++ "] " ++ msg
  | .otherError msg => msg

/-- Model of Go `*time.Time` values: an opaque instant (external
stdlib type, rendered injectively). -/
abbrev GoTime := Int

/-- Model of Go `t.Format(time.RFC3339)` (external stdlib): an injective
rendering of the instant as a string. -/
def formatRFC3339 (t : GoTime) : String := toString t

/-- The remote entity `linodego.Image` with the fields this controller
reads (`type` keeps the source's lowercase JSON name since Lean reserves
`Type`). `Created` and `Expiry` are nullable pointers in Go. -/
structure Image where
  ID : String
  Label : String
  Description : String
  type : String
  Size : Int
  Vendor : String
  CreatedBy : String
  Deprecated : Bool
  IsPublic : Bool
  Created : Option GoTime
  Expiry : Option GoTime
deriving DecidableEq, Repr

/-- The local state (`*schema.ResourceData`): the opaque ID plus the
attribute bag of the image schema. Required/optional configured fields
(`label`, `description`, `linode_id`, `disk_id`) are plain values as
`d.Get` reads with a type assertion; computed attributes are `Option`
so that "set" versus "never set" is visible. `hasChange_*` records the
state store's `d.HasChange` answers, and `timeout_create_seconds` is
`int(d.Timeout("create").Seconds())`. -/
structure ResourceData where
  id : String := ""
  label : String := ""
  description : String := ""
  linode_id : Int := 0
  disk_id : Int := 0
  type : Option String := none
  size : Option Int := none
  vendor : Option String := none
  created_by : Option String := none
  is_deprecated : Option Bool := none
  is_public : Option Bool := none
  created : Option String := none
  expiry : Option String := none
  timeout_create_seconds : Int := 0
  hasChange_label : Bool := false
  hasChange_description : Bool := false
deriving DecidableEq, Repr

/-- `linodego.ImageCreateOptions` as filled by the source. -/
structure ImageCreateOptions where
  DiskID : Int
  Label : String
  Description : String
deriving DecidableEq, Repr

/-- `linodego.ImageUpdateOptions`: `Label` is a plain string whose zero
value `""` is omitted from the serialized request (`omitempty`), and
`Description` is a nullable pointer, omitted when nil. -/
structure ImageUpdateOptions where
  Label : String := ""
  Description : Option String := none
deriving DecidableEq, Repr

/-- The request is serialized with a `label` field exactly when `Label`
is not the zero value (external client's `omitempty` serialization). -/
def ImageUpdateOptions.carriesLabel (o : ImageUpdateOptions) : Bool :=
  o.Label != ""

/-- The request is serialized with a `description` field exactly when
the pointer is non-nil. -/
def ImageUpdateOptions.carriesDescription (o : ImageUpdateOptions) : Bool :=
  o.Description.isSome

/-- One API call issued by the controller, with the arguments the source
passes at that call site. -/
inductive ApiCall where
  | waitForInstanceDiskStatus (linodeID diskID : Int) (timeoutSeconds : Int)
  | createImage (opts : ImageCreateOptions)
  | getImage (id : String)
  | updateImage (id : String) (opts : ImageUpdateOptions)
  | deleteImage (id : String)
deriving DecidableEq, Repr

/-- Outcome of a controller operation: Go returns `error` (nil or not)
while mutating `d` in place, so the outcome carries the final local
state; `nilPanic` marks a nil-pointer dereference (a Go runtime panic,
not an `error` return). -/
inductive OpResult where
  | ok (d : ResourceData)
  | err (d : ResourceData) (msg : String)
  | nilPanic (d : ResourceData)
deriving DecidableEq, Repr

/-- The local state carried by an outcome. -/
def OpResult.state : OpResult → ResourceData
  | .ok d => d
  | .err d _ => d
  | .nilPanic d => d

def OpResult.isOk : OpResult → Bool
  | .ok _ => true
  | _ => false

def OpResult.isErr : OpResult → Bool
  | .err _ _ => true
  | _ => false

/-- `resourceLinodeImageExists`: one `GetImage` call (its answer is
`resp`); `(false, none)` on a structured 404, `(false, some msg)` on any
other failure, `(true, none)` on success. Go returns `(bool, error)`. -/
def resourceLinodeImageExists (id : String) (resp : Except GoError Image) :
    Bool × Option String :=
  match resp with
  | .ok _ => (true, none)
  | .error e =>
    match e with
    | .linodegoError code msg =>
      if code == 404 then (false, none)
      else (false, some ("Error getting Linode Image ID " ++ id ++ ": "
        ++ GoError.errString (.linodegoError code msg)))
    | .otherError msg =>
      (false, some ("Error getting Linode Image ID " ++ id ++ ": "
        ++ GoError.errString (.otherError msg)))

/-- `resourceLinodeImageRead`: a direct `GetImage` (answer `get1`) whose
error is immediately shadowed by the `err` of the `Exists` re-check
(whose inner `GetImage` answer is `get2`); on the found path the fields
of the *first* fetch's image pointer are dereferenced, which panics when
that fetch failed. Returns the outcome and the calls issued. -/
def resourceLinodeImageRead (d : ResourceData)
    (get1 get2 : Except GoError Image) : OpResult × List ApiCall :=
  let trace : List ApiCall := [.getImage d.id, .getImage d.id]
  let image : Option Image := get1.toOption
  let found := resourceLinodeImageExists d.id get2
  match found.2 with
  | some e =>
    (.err d ("Error finding the specified Linode Image: " ++ e), trace)
  | none =>
    if !found.1 then
      (.ok { d with id := "" }, trace)
    else
      match image with
      | none => (.nilPanic d, trace)
      | some img =>
        (.ok { d with
          label := img.Label
          description := img.Description
          type := some img.type
          size := some img.Size
          vendor := some img.Vendor
          created_by := some img.CreatedBy
          is_deprecated := some img.Deprecated
          is_public := some img.IsPublic
          created := match img.Created with
            | some t => some (formatRFC3339 t)
            | none => d.created
          expiry := match img.Expiry with
            | some t => some (formatRFC3339 t)
            | none => d.expiry }, trace)

/-- `resourceLinodeImageDelete`: one `DeleteImage` call (answer `resp`:
`none` is a nil error); any failure — a 404 included — is wrapped and
returned, and only on success is the local ID cleared. -/
def resourceLinodeImageDelete (d : ResourceData) (resp : Option GoError) :
    OpResult × List ApiCall :=
  let trace : List ApiCall := [.deleteImage d.id]
  match resp with
  | some e =>
    (.err d ("Error deleting Linode Image " ++ d.id ++ ": "
      ++ GoError.errString e), trace)
  | none => (.ok { d with id := "" }, trace)

/-- The answers of the API client to the (up to six) calls a single
`resourceLinodeImageCreate` run can make, in call order: both
`WaitForInstanceDiskStatus` calls (`none` is a nil error), `CreateImage`,
the `Exists` re-check's `GetImage`, and the two `GetImage` calls of the
tail `Read`. -/
structure CreateResponses where
  wait1 : Option GoError
  create : Except GoError Image
  wait2 : Option GoError
  existsGet : Except GoError Image
  readGet1 : Except GoError Image
  readGet2 : Except GoError Image
deriving Repr

/-- The first wait error message of `resourceLinodeImageCreate`, naming
the instance and the disk. -/
def waitReadyForMsg (linodeID diskID : Int) : String :=
  "Error waiting for Linode Instance " ++ toString linodeID
    ++ " Disk " ++ toString diskID
    ++ " to become ready for taking an Image"

/-- The second wait error message of `resourceLinodeImageCreate`. -/
def waitReadyWhileMsg (linodeID diskID : Int) : String :=
  "Error waiting for Linode Instance " ++ toString linodeID
    ++ " Disk " ++ toString diskID
    ++ " to become ready while taking an Image"

/-- `resourceLinodeImageCreate`: waits for the source disk to be ready
(bounded by the create timeout), issues the create, stores the new ID,
waits again, re-checks existence via `Exists`, and tail-calls `Read`.
The `d.Partial` bookkeeping has no effect on the embedded state. -/
def resourceLinodeImageCreate (d : ResourceData) (r : CreateResponses) :
    OpResult × List ApiCall :=
  let linodeID := d.linode_id
  let diskID := d.disk_id
  let waitCall : ApiCall :=
    .waitForInstanceDiskStatus linodeID diskID d.timeout_create_seconds
  match r.wait1 with
  | some _ => (.err d (waitReadyForMsg linodeID diskID), [waitCall])
  | none =>
    let createOpts : ImageCreateOptions :=
      { DiskID := diskID, Label := d.label, Description := d.description }
    match r.create with
    | .error e =>
      (.err d ("Error creating a Linode Image: " ++ GoError.errString e),
        [waitCall, .createImage createOpts])
    | .ok image =>
      let d1 := { d with id := image.ID }
      match r.wait2 with
      | some _ =>
        (.err d1 (waitReadyWhileMsg linodeID diskID),
          [waitCall, .createImage createOpts, waitCall])
      | none =>
        let found := resourceLinodeImageExists d1.id r.existsGet
        let trace3 : List ApiCall :=
          [waitCall, .createImage createOpts, waitCall, .getImage d1.id]
        match found.2 with
        | some e =>
          (.err d1 ("Error finding the newly created Linode Image: " ++ e),
            trace3)
        | none =>
          if !found.1 then
            (.err d1 "The Linode Image failed to be created", trace3)
          else
            let res := resourceLinodeImageRead d1 r.readGet1 r.readGet2
            (res.1, trace3 ++ res.2)

/-- The answers of the API client to the (up to four) calls a single
`resourceLinodeImageUpdate` run can make, in call order: the initial
`GetImage`, `UpdateImage`, and the two `GetImage` calls of the tail
`Read`. -/
structure UpdateResponses where
  getCurrent : Except GoError Image
  update : Except GoError Image
  readGet1 : Except GoError Image
  readGet2 : Except GoError Image
deriving Repr

/-- `resourceLinodeImageUpdate`: fetches the current image (the fetched
value is never used), builds the update options from the two `HasChange`
answers, always issues the update, copies the answered label and
description into the state, and tail-calls `Read`. A failing update is
returned unwrapped. -/
def resourceLinodeImageUpdate (d : ResourceData) (r : UpdateResponses) :
    OpResult × List ApiCall :=
  match r.getCurrent with
  | .error e =>
    (.err d ("Error fetching data about the current Image: "
      ++ GoError.errString e), [.getImage d.id])
  | .ok _ =>
    let updateOpts : ImageUpdateOptions :=
      { Label := if d.hasChange_label then d.label else ""
        Description :=
          if d.hasChange_description then some d.description else none }
    let trace2 : List ApiCall := [.getImage d.id, .updateImage d.id updateOpts]
    match r.update with
    | .error e => (.err d (GoError.errString e), trace2)
    | .ok image =>
      let d1 := { d with label := image.Label
                         description := image.Description }
      let res := resourceLinodeImageRead d1 r.readGet1 r.readGet2
      (res.1, trace2 ++ res.2)

/-- Modelled from the spec: the volume controller's `detectVolumeIDChange`
(the spec's `DetectOptionalIntChange`, section 4.2) is not among the
provided sources — only its unit test is. Per the spec it treats two
optional integers as equal if both are absent (nil); unequal if exactly
one is absent; unequal if both present but differing in value. -/
def detectVolumeIDChange (haveID wantID : Option Int) : Bool :=
  match haveID, wantID with
  | none, none => false
  | some _, none => true
  | none, some _ => true
  | some h, some w => h != w

/-! ## Helper lemmas -/

/-- Whenever `resourceLinodeImageRead` returns an error outcome, the
local state it carries is the one it was given, unchanged. -/
theorem read_err_state (d : ResourceData) (g1 g2 : Except GoError Image)
    {d' : ResourceData} {msg : String}
    (h : (resourceLinodeImageRead d g1 g2).1 = .err d' msg) : d' = d := by
  unfold resourceLinodeImageRead at h
  cases g2 with
  | ok i =>
    cases g1 with
    | ok i1 => simp [resourceLinodeImageExists, Except.toOption] at h
    | error e1 => simp [resourceLinodeImageExists, Except.toOption] at h
  | error e =>
    cases e with
    | linodegoError code m =>
      by_cases hc : code = 404
      · subst hc; simp [resourceLinodeImageExists] at h
      · simp [resourceLinodeImageExists, hc] at h
        exact h.1.symm
    | otherError m =>
      simp [resourceLinodeImageExists] at h
      exact h.1.symm

/-! ## Claims -/

/-- C1: the change detector returns false when both optional integers
are nil, true when exactly one is nil, and, when both are present, true
exactly when the two values differ. -/
theorem claim_C1 (a b : Int) :
    detectVolumeIDChange none none = false
  ∧ detectVolumeIDChange (some a) none = true
  ∧ detectVolumeIDChange none (some b) = true
  ∧ (detectVolumeIDChange (some a) (some b) = true ↔ a ≠ b) := by
  refine ⟨rfl, rfl, rfl, ?_⟩
  simp [detectVolumeIDChange]

/-- C4: `resourceLinodeImageExists` returns `(false, nil)` exactly on a
structured 404 from the get, `(true, nil)` exactly when the get
succeeds, and an error for any other failure of the get. -/
theorem claim_C4 (id : String) (resp : Except GoError Image) :
    (resourceLinodeImageExists id resp = (false, none) ↔
      ∃ m, resp = .error (.linodegoError 404 m))
  ∧ (resourceLinodeImageExists id resp = (true, none) ↔
      ∃ img, resp = .ok img)
  ∧ (∀ e, resp = .error e → (∀ m, e ≠ .linodegoError 404 m) →
      ∃ msg, resourceLinodeImageExists id resp = (false, some msg)) := by
  refine ⟨?_, ?_, ?_⟩
  · cases resp with
    | ok img => simp [resourceLinodeImageExists]
    | error e =>
      cases e with
      | linodegoError code m =>
        by_cases hc : code = 404
        · subst hc; simp [resourceLinodeImageExists]
        · simp [resourceLinodeImageExists, hc]
      | otherError m => simp [resourceLinodeImageExists]
  · cases resp with
    | ok img => simp [resourceLinodeImageExists]
    | error e =>
      cases e with
      | linodegoError code m =>
        by_cases hc : code = 404
        · subst hc; simp [resourceLinodeImageExists]
        · simp [resourceLinodeImageExists, hc]
      | otherError m => simp [resourceLinodeImageExists]
  · rintro e rfl hne
    cases e with
    | linodegoError code m =>
      have hc : code ≠ 404 := by
        intro h; exact hne m (by rw [h])
      simp [resourceLinodeImageExists, hc]
    | otherError m => simp [resourceLinodeImageExists]

/-- C4 witness: a structured 404 yields `(false, none)`. -/
theorem claim_C4_witness :
    resourceLinodeImageExists "123"
      (.error (.linodegoError 404 "Not found")) = (false, none) :=
  (claim_C4 "123" (.error (.linodegoError 404 "Not found"))).1.mpr
    ⟨"Not found", rfl⟩

/-- C5: when the `Exists` re-check reports the image gone (404), `Read`
clears the local ID, sets no attributes, and returns success. -/
theorem claim_C5 (d : ResourceData) (get1 : Except GoError Image)
    (m : String) :
    resourceLinodeImageRead d get1 (.error (.linodegoError 404 m))
      = (.ok { d with id := "" }, [.getImage d.id, .getImage d.id]) := by
  cases get1 <;> simp [resourceLinodeImageRead, resourceLinodeImageExists, Except.toOption]

/-- C9: when the remote image exists (both fetches succeed), `Read`
returns success and maps every remote field onto the attribute bag,
setting each optional timestamp exactly when the remote value is
non-nil, formatted as a timestamp string. -/
theorem claim_C9 (d : ResourceData) (img img2 : Image) :
    (resourceLinodeImageRead d (.ok img) (.ok img2)).1.isOk = true
  ∧ ((resourceLinodeImageRead d (.ok img) (.ok img2)).1.state.label
        = img.Label)
  ∧ ((resourceLinodeImageRead d (.ok img) (.ok img2)).1.state.description
        = img.Description)
  ∧ ((resourceLinodeImageRead d (.ok img) (.ok img2)).1.state.type
        = some img.type)
  ∧ ((resourceLinodeImageRead d (.ok img) (.ok img2)).1.state.size
        = some img.Size)
  ∧ ((resourceLinodeImageRead d (.ok img) (.ok img2)).1.state.vendor
        = some img.Vendor)
  ∧ ((resourceLinodeImageRead d (.ok img) (.ok img2)).1.state.created_by
        = some img.CreatedBy)
  ∧ ((resourceLinodeImageRead d (.ok img) (.ok img2)).1.state.is_deprecated
        = some img.Deprecated)
  ∧ ((resourceLinodeImageRead d (.ok img) (.ok img2)).1.state.is_public
        = some img.IsPublic)
  ∧ (∀ t, img.Created = some t →
      (resourceLinodeImageRead d (.ok img) (.ok img2)).1.state.created
        = some (formatRFC3339 t))
  ∧ (img.Created = none →
      (resourceLinodeImageRead d (.ok img) (.ok img2)).1.state.created
        = d.created)
  ∧ (∀ t, img.Expiry = some t →
      (resourceLinodeImageRead d (.ok img) (.ok img2)).1.state.expiry
        = some (formatRFC3339 t))
  ∧ (img.Expiry = none →
      (resourceLinodeImageRead d (.ok img) (.ok img2)).1.state.expiry
        = d.expiry) := by
  obtain ⟨ID, L, De, Ty, Sz, V, CB, Dep, IP, Cr, Ex⟩ := img
  refine ⟨rfl, rfl, rfl, rfl, rfl, rfl, rfl, rfl, rfl, ?_, ?_, ?_, ?_⟩ <;>
    cases Cr <;> cases Ex <;>
      simp [resourceLinodeImageRead, resourceLinodeImageExists,
        Except.toOption, OpResult.state]

/-- Concrete data for the C9 witness: an image whose `Created` is
present and whose `Expiry` is nil. -/
def img9 : Image :=
  { ID := "9", Label := "lbl", Description := "desc", type := "manual"
    Size := 500, Vendor := "v", CreatedBy := "me", Deprecated := false
    IsPublic := false, Created := some 5, Expiry := none }

def d9 : ResourceData := { id := "9" }

/-- C9 witness: on `img9` the `created` attribute is set from the
present timestamp and `expiry` is left untouched. -/
theorem claim_C9_witness :
    (resourceLinodeImageRead d9 (.ok img9) (.ok img9)).1.state.created
      = some (formatRFC3339 5)
  ∧ (resourceLinodeImageRead d9 (.ok img9) (.ok img9)).1.state.expiry
      = d9.expiry :=
  ⟨(claim_C9 d9 img9 img9).2.2.2.2.2.2.2.2.2.1 5 rfl,
   (claim_C9 d9 img9 img9).2.2.2.2.2.2.2.2.2.2.2.2 rfl⟩

def d10 : ResourceData := { id := "10" }

def img10 : Image :=
  { ID := "10", Label := "lbl", Description := "", type := "manual"
    Size := 500, Vendor := "", CreatedBy := "me", Deprecated := false
    IsPublic := false, Created := none, Expiry := none }

/-- C10: refuted on the code — when the initial direct fetch fails with
a non-404 error (its image pointer is nil and its error is shadowed) but
the `Exists` re-check's fetch succeeds, `Read` reaches the
attribute-mapping branch and dereferences the nil pointer. -/
theorem claim_C10 :
    (resourceLinodeImageRead d10
        (.error (.otherError "connection reset")) (.ok img10)).1
      = .nilPanic d10 := rfl

def dDel : ResourceData := { id := "42" }

/-- C2 counterexample: a delete answered with a structured 404 ("already
gone") is returned as an error and the local ID is retained, refuting
the claim that Delete on an already-absent ID succeeds. -/
theorem claim_C2_cex :
    (resourceLinodeImageDelete dDel
        (some (.linodegoError 404 "Not found"))).1.isErr = true
  ∧ (resourceLinodeImageDelete dDel
        (some (.linodegoError 404 "Not found"))).1.state.id = "42" :=
  ⟨rfl, rfl⟩

/-- C2 (amended): Delete clears the local ID and returns success exactly
when the delete request succeeds; every failure of the delete request,
a not-found/404 included, is wrapped and returned as an error with the
local ID retained. -/
theorem claim_C2 (d : ResourceData) (resp : Option GoError) :
    (resp = none →
      resourceLinodeImageDelete d resp
        = (.ok { d with id := "" }, [.deleteImage d.id]))
  ∧ (∀ e, resp = some e →
      resourceLinodeImageDelete d resp
        = (.err d ("Error deleting Linode Image " ++ d.id ++ ": "
            ++ GoError.errString e), [.deleteImage d.id])) := by
  constructor
  · rintro rfl; rfl
  · rintro e rfl; rfl

/-- C2 witness: a successful delete clears the ID of a concrete state. -/
theorem claim_C2_witness :
    resourceLinodeImageDelete ({ id := "7" } : ResourceData) none
      = (.ok { ({ id := "7" } : ResourceData) with id := "" },
         [.deleteImage "7"]) :=
  (claim_C2 { id := "7" } none).1 rfl

def dCr : ResourceData :=
  { label := "lbl", description := "d", linode_id := 200, disk_id := 100
    timeout_create_seconds := 600 }

def imgCr : Image :=
  { ID := "img42", Label := "lbl", Description := "d", type := "manual"
    Size := 500, Vendor := "", CreatedBy := "me", Deprecated := false
    IsPublic := false, Created := none, Expiry := none }

def rCr : CreateResponses :=
  { wait1 := none, create := .ok imgCr
    wait2 := some (.otherError "deadline exceeded")
    existsGet := .ok imgCr, readGet1 := .ok imgCr, readGet2 := .ok imgCr }

/-- C3 counterexample: when the create request succeeds and the
post-create wait then fails, Create returns an error while the local
state retains the new image ID, refuting the claim that every failing
Create leaves the local state absent. -/
theorem claim_C3_cex :
    (resourceLinodeImageCreate dCr rCr).1.isErr = true
  ∧ (resourceLinodeImageCreate dCr rCr).1.state.id = "img42" :=
  ⟨rfl, rfl⟩

/-- C3 (amended): a Create execution that errors before the create
request succeeds leaves the local state unchanged (no ID stored); an
execution that errors after a successful create request retains the new
image's ID in the local state. -/
theorem claim_C3 (d : ResourceData) (r : CreateResponses) :
    (∀ e, r.wait1 = some e →
      (resourceLinodeImageCreate d r).1
        = .err d (waitReadyForMsg d.linode_id d.disk_id))
  ∧ (∀ e, r.wait1 = none → r.create = .error e →
      (resourceLinodeImageCreate d r).1
        = .err d ("Error creating a Linode Image: " ++ GoError.errString e))
  ∧ (∀ img d' msg, r.wait1 = none → r.create = .ok img →
      (resourceLinodeImageCreate d r).1 = .err d' msg →
      d'.id = img.ID) := by
  obtain ⟨w1, cr, w2, eg, rg1, rg2⟩ := r
  refine ⟨?_, ?_, ?_⟩
  · rintro e rfl; rfl
  · rintro e rfl rfl; rfl
  · rintro img d' msg rfl rfl h
    cases w2 with
    | some e2 =>
      simp [resourceLinodeImageCreate] at h
      rw [← h.1]
    | none =>
      cases eg with
      | ok i =>
        simp [resourceLinodeImageCreate, resourceLinodeImageExists] at h
        rw [read_err_state _ rg1 rg2 h]
      | error e3 =>
        cases e3 with
        | linodegoError code m =>
          by_cases hc : code = 404
          · subst hc
            simp [resourceLinodeImageCreate, resourceLinodeImageExists] at h
            rw [← h.1]
          · simp [resourceLinodeImageCreate, resourceLinodeImageExists,
              hc] at h
            rw [← h.1]
        | otherError m =>
          simp [resourceLinodeImageCreate, resourceLinodeImageExists] at h
          rw [← h.1]

def rCrW : CreateResponses :=
  { wait1 := some (.otherError "deadline exceeded"), create := .ok imgCr
    wait2 := none, existsGet := .ok imgCr
    readGet1 := .ok imgCr, readGet2 := .ok imgCr }

/-- C3 witness: a Create whose pre-create wait fails errors with the
given state unchanged. -/
theorem claim_C3_witness :
    (resourceLinodeImageCreate dCr rCrW).1
      = .err dCr (waitReadyForMsg dCr.linode_id dCr.disk_id) :=
  (claim_C3 dCr rCrW).1 (.otherError "deadline exceeded") rfl

/-- C6: once the create request succeeds, Create issues the second
post-create wait, then (if that wait succeeds) the `Exists` re-check on
the new ID; it returns success only when that re-check confirms the
image present, and errors whenever the re-check reports it absent or
fails. -/
theorem claim_C6 (d : ResourceData) (r : CreateResponses) (img : Image)
    (hw : r.wait1 = none) (hc : r.create = .ok img) :
    (∃ rest, (resourceLinodeImageCreate d r).2
      = [.waitForInstanceDiskStatus d.linode_id d.disk_id
           d.timeout_create_seconds,
         .createImage { DiskID := d.disk_id, Label := d.label
                        Description := d.description },
         .waitForInstanceDiskStatus d.linode_id d.disk_id
           d.timeout_create_seconds] ++ rest)
  ∧ (r.wait2 = none → ∃ rest, (resourceLinodeImageCreate d r).2
      = [.waitForInstanceDiskStatus d.linode_id d.disk_id
           d.timeout_create_seconds,
         .createImage { DiskID := d.disk_id, Label := d.label
                        Description := d.description },
         .waitForInstanceDiskStatus d.linode_id d.disk_id
           d.timeout_create_seconds,
         .getImage img.ID] ++ rest)
  ∧ ((resourceLinodeImageCreate d r).1.isOk = true →
      r.wait2 = none
      ∧ resourceLinodeImageExists img.ID r.existsGet = (true, none))
  ∧ (r.wait2 = none →
      resourceLinodeImageExists img.ID r.existsGet ≠ (true, none) →
      (resourceLinodeImageCreate d r).1.isErr = true) := by
  obtain ⟨w1, cr, w2, eg, rg1, rg2⟩ := r
  cases hw
  cases hc
  refine ⟨?_, ?_, ?_, ?_⟩
  · cases w2 with
    | some e2 => exact ⟨[], rfl⟩
    | none =>
      cases eg with
      | ok i =>
        exact ⟨.getImage img.ID ::
          (resourceLinodeImageRead { d with id := img.ID } rg1 rg2).2, rfl⟩
      | error e3 =>
        cases e3 with
        | linodegoError code m =>
          by_cases hc4 : code = 404
          · subst hc4; exact ⟨[.getImage img.ID], rfl⟩
          · refine ⟨[.getImage img.ID], ?_⟩
            simp [resourceLinodeImageCreate, resourceLinodeImageExists, hc4]
        | otherError m => exact ⟨[.getImage img.ID], rfl⟩
  · rintro rfl
    cases eg with
    | ok i =>
      exact ⟨(resourceLinodeImageRead { d with id := img.ID } rg1 rg2).2,
        rfl⟩
    | error e3 =>
      cases e3 with
      | linodegoError code m =>
        by_cases hc4 : code = 404
        · subst hc4; exact ⟨[], rfl⟩
        · refine ⟨[], ?_⟩
          simp [resourceLinodeImageCreate, resourceLinodeImageExists, hc4]
      | otherError m => exact ⟨[], rfl⟩
  · intro hok
    cases w2 with
    | some e2 => simp [resourceLinodeImageCreate, OpResult.isOk] at hok
    | none =>
      refine ⟨rfl, ?_⟩
      cases eg with
      | ok i => rfl
      | error e3 =>
        cases e3 with
        | linodegoError code m =>
          by_cases hc4 : code = 404
          · subst hc4
            simp [resourceLinodeImageCreate, resourceLinodeImageExists,
              OpResult.isOk] at hok
          · simp [resourceLinodeImageCreate, resourceLinodeImageExists,
              hc4, OpResult.isOk] at hok
        | otherError m =>
          simp [resourceLinodeImageCreate, resourceLinodeImageExists,
            OpResult.isOk] at hok
  · rintro rfl hne
    cases eg with
    | ok i => exact absurd rfl hne
    | error e3 =>
      cases e3 with
      | linodegoError code m =>
        by_cases hc4 : code = 404
        · subst hc4; rfl
        · simp [resourceLinodeImageCreate, resourceLinodeImageExists,
            hc4, OpResult.isErr]
      | otherError m => rfl

def rCrOk : CreateResponses :=
  { wait1 := none, create := .ok imgCr, wait2 := none
    existsGet := .ok imgCr, readGet1 := .ok imgCr, readGet2 := .ok imgCr }

/-- C6 witness: on an all-successful run the post-create `Exists`
re-check reports the image present. -/
theorem claim_C6_witness :
    rCrOk.wait2 = none
  ∧ resourceLinodeImageExists imgCr.ID rCrOk.existsGet = (true, none) :=
  (claim_C6 dCr rCrOk imgCr rfl rfl).2.2.1 rfl

/-- C7: every Create first issues the bounded disk-readiness wait with
the caller-supplied create timeout, and when that wait fails it returns
the fatal error naming the instance and the disk without ever issuing
the create request. -/
theorem claim_C7 (d : ResourceData) (r : CreateResponses) :
    ((resourceLinodeImageCreate d r).2.head?
      = some (.waitForInstanceDiskStatus d.linode_id d.disk_id
          d.timeout_create_seconds))
  ∧ (∀ e, r.wait1 = some e →
      (resourceLinodeImageCreate d r).1
        = .err d (waitReadyForMsg d.linode_id d.disk_id)
      ∧ ∀ opts, ApiCall.createImage opts ∉ (resourceLinodeImageCreate d r).2) := by
  obtain ⟨w1, cr, w2, eg, rg1, rg2⟩ := r
  constructor
  · cases w1 with
    | some e => rfl
    | none =>
      cases cr with
      | error e => rfl
      | ok img =>
        cases w2 with
        | some e2 => rfl
        | none =>
          cases eg with
          | ok i => rfl
          | error e3 =>
            cases e3 with
            | linodegoError code m =>
              by_cases hc4 : code = 404
              · subst hc4; rfl
              · simp [resourceLinodeImageCreate, resourceLinodeImageExists,
                  hc4]
            | otherError m => rfl
  · rintro e rfl
    exact ⟨rfl, by simp [resourceLinodeImageCreate]⟩

/-- C7 witness: a concrete Create whose wait times out errors with the
message naming instance 200 and disk 100, and issues no create call. -/
theorem claim_C7_witness :
    (resourceLinodeImageCreate dCr rCrW).1
      = .err dCr (waitReadyForMsg dCr.linode_id dCr.disk_id)
  ∧ ∀ opts, ApiCall.createImage opts ∉ (resourceLinodeImageCreate dCr rCrW).2 :=
  (claim_C7 dCr rCrW).2 (.otherError "deadline exceeded") rfl

def dUp : ResourceData := { id := "5", label := "lab", description := "des" }

def imgUp : Image :=
  { ID := "5", Label := "lab", Description := "des", type := "manual"
    Size := 500, Vendor := "", CreatedBy := "me", Deprecated := false
    IsPublic := false, Created := none, Expiry := none }

def rUp : UpdateResponses :=
  { getCurrent := .ok imgUp, update := .ok imgUp
    readGet1 := .ok imgUp, readGet2 := .ok imgUp }

/-- A state whose label has changed to the empty string. -/
def dUpE : ResourceData := { id := "5", label := "", hasChange_label := true }

/-- C8 counterexample, both failing cases of the claim. First: with no
field changed, Update still issues an update request (carrying no
fields). Second: with the label changed to the empty string, the one
update request issued (the full call trace is pinned down) omits the
label, so the request does not carry a changed field. -/
theorem claim_C8_cex :
    (dUp.hasChange_label = false
      ∧ dUp.hasChange_description = false
      ∧ ApiCall.updateImage "5" { Label := "", Description := none }
          ∈ (resourceLinodeImageUpdate dUp rUp).2)
  ∧ (dUpE.hasChange_label = true
      ∧ dUpE.label = ""
      ∧ (resourceLinodeImageUpdate dUpE rUp).2
          = [.getImage "5",
             .updateImage "5" { Label := "", Description := none },
             .getImage "5", .getImage "5"]
      ∧ ImageUpdateOptions.carriesLabel { Label := "", Description := none }
          = false) := by
  refine ⟨⟨rfl, rfl, ?_⟩, rfl, rfl, ?_, rfl⟩
  · simp [resourceLinodeImageUpdate, rUp, dUp, resourceLinodeImageRead]
  · simp [resourceLinodeImageUpdate, rUp, dUpE, resourceLinodeImageRead,
      resourceLinodeImageExists, imgUp, Except.toOption]

/-- C8 (amended): provided the initial fetch succeeds, an update request
is issued even when nothing changed, then carrying no fields; the
request carries the description exactly when the description changed,
and the label exactly when the label changed to a non-empty value — a
label changed to the empty string is omitted by the client's
zero-value serialization; an unchanged field is never carried. -/
theorem claim_C8 (d : ResourceData) (r : UpdateResponses) (g : Image)
    (hg : r.getCurrent = .ok g) :
    ∃ opts : ImageUpdateOptions,
      ApiCall.updateImage d.id opts ∈ (resourceLinodeImageUpdate d r).2
      ∧ opts.carriesLabel = (d.hasChange_label && d.label != "")
      ∧ opts.carriesDescription = d.hasChange_description
      ∧ (d.hasChange_label = false → d.hasChange_description = false →
          opts = {}) := by
  obtain ⟨gc, up, rg1, rg2⟩ := r
  cases hg
  refine ⟨{ Label := if d.hasChange_label then d.label else ""
            Description := if d.hasChange_description then some d.description
              else none }, ?_, ?_, ?_, ?_⟩
  · cases up with
    | error e => simp [resourceLinodeImageUpdate]
    | ok i => simp [resourceLinodeImageUpdate]
  · cases hch : d.hasChange_label <;>
      simp [ImageUpdateOptions.carriesLabel, hch]
  · cases hch : d.hasChange_description <;>
      simp [ImageUpdateOptions.carriesDescription, hch]
  · intro h1 h2
    simp [h1, h2]

def dUpW : ResourceData :=
  { id := "6", label := "new", description := "des", hasChange_label := true }

def rUpW : UpdateResponses :=
  { getCurrent := .ok imgUp, update := .ok imgUp
    readGet1 := .ok imgUp, readGet2 := .ok imgUp }

/-- C8 witness: a concrete Update with only the label changed (to a
non-empty value) issues a request carrying the label and not the
description. -/
theorem claim_C8_witness :
    ∃ opts : ImageUpdateOptions,
      ApiCall.updateImage dUpW.id opts
          ∈ (resourceLinodeImageUpdate dUpW rUpW).2
      ∧ opts.carriesLabel = (dUpW.hasChange_label && dUpW.label != "")
      ∧ opts.carriesDescription = dUpW.hasChange_description
      ∧ (dUpW.hasChange_label = false → dUpW.hasChange_description = false →
          opts = {}) :=
  claim_C8 dUpW rUpW imgUp rfl

end LinodeProvider
